import Mathlib

/-!
Verification of the labelle rendering/protocol core against its
natural-language specification.  The definitions below are shallow
embeddings of the Python sources under `src/src/labelle/lib`; each
definition's doc comment names the function it embeds.  PIL images are
abstracted to their dimensions (every property treated here is about
widths, heights and offsets).  Python ints are modelled as `Nat`/`Int`
(matching the nonnegativity assertions in the constructors), Python
floats as exact rationals.
-/

namespace Labelle

/-- Justification direction (`labelle.lib.constants.Direction`). -/
inductive Direction where
  | left
  | center
  | right
deriving DecidableEq

/-- Render mode of `MarginsRenderEngine` (`Literal["print", "preview"]`). -/
inductive Mode where
  | print
  | preview
deriving DecidableEq

/-- A monochrome raster (`PIL.Image.Image`, mode "1"), abstracted to its
dimensions; all claims below concern only widths, heights and offsets. -/
structure Bitmap where
  width : Nat
  height : Nat
deriving DecidableEq

/-- Failure outcomes of `MarginsRenderEngine.render_with_meta`
(`margins.py`): the `BitmapTooBigError` raised by
`_calculate_visible_width` (carrying `width_px` and `max_width_px`), and
the Python `assert horizontal_offset_px >= self.visible_horizontal_margin_px`
failing. -/
inductive RenderError where
  | bitmapTooBig (width_px : Nat) (max_width_px : Nat)
  | assertionError
deriving DecidableEq

/-- The state of a `MarginsRenderEngine` after `__init__` (`margins.py`,
normal mode, i.e. `is_dev_mode_no_margins()` false).  The constructor
asserts all margins are nonnegative, so `Nat` fields are faithful;
`max_width_px` is `None`-able. -/
structure MarginsRenderEngine where
  mode : Mode
  justify : Direction
  visible_horizontal_margin_px : Nat
  labeler_horizontal_margin_px : Nat
  labeler_vertical_margin_px : Nat
  max_width_px : Option Nat
  min_width_px : Nat
deriving DecidableEq

/-- The local `minimal_label_width_px` of
`MarginsRenderEngine._calculate_visible_width`. -/
def MarginsRenderEngine.minimalLabelWidthPx (e : MarginsRenderEngine)
    (payload_width_px : Nat) : Nat :=
  payload_width_px + e.visible_horizontal_margin_px * 2

/-- Embeds `MarginsRenderEngine._calculate_visible_width` (`margins.py`
lines 71-82): raise `BitmapTooBigError` when a max width is set and
exceeded, otherwise pad out to `min_width_px`. -/
def MarginsRenderEngine.calculateVisibleWidth (e : MarginsRenderEngine)
    (payload_width_px : Nat) : Except RenderError Nat :=
  let minimal := e.minimalLabelWidthPx payload_width_px
  match e.max_width_px with
  | some mw =>
    if minimal > mw then .error (.bitmapTooBig minimal mw)
    else .ok (if e.min_width_px > minimal then e.min_width_px else minimal)
  | none => .ok (if e.min_width_px > minimal then e.min_width_px else minimal)

/-- The justification step of `MarginsRenderEngine.render_with_meta`
(`margins.py` lines 95-102).  Python computes `padding_px -
visible_horizontal_margin_px` over unbounded ints; at every reachable
call `padding_px ≥ 2 * visible_horizontal_margin_px` (a consequence of
`minimal_le_of_ok` below), so truncated `Nat` subtraction and
`Nat` floor division agree with Python `-` and `//` here. -/
def MarginsRenderEngine.justificationOffsetPx (e : MarginsRenderEngine)
    (padding_px : Nat) : Nat :=
  match e.justify with
  | .left => e.visible_horizontal_margin_px
  | .center => padding_px / 2
  | .right => padding_px - e.visible_horizontal_margin_px

/-- The metadata map returned by `render_with_meta`:
`{"horizontal_offset_px": ..., "vertical_offset_px": ...}`.  The
horizontal offset is an `Int` because print mode subtracts the labeler
horizontal margin from it. -/
structure RenderMeta where
  horizontal_offset_px : Int
  vertical_offset_px : Nat
deriving DecidableEq

/-- Embeds `MarginsRenderEngine.render_with_meta` (`margins.py` lines
87-142) applied to a payload bitmap (the result of
`self.render_engine.render(context)`): compute the visible width, the
justification offset, check the `assert horizontal_offset_px >=
visible_horizontal_margin_px`, apply the print-mode cutter correction,
and build the canvas of width `label_width_px` and height
`payload.height + 2 * labeler_vertical_margin_px`. -/
def MarginsRenderEngine.renderWithMeta (e : MarginsRenderEngine)
    (payload : Bitmap) : Except RenderError (Bitmap × RenderMeta) :=
  match e.calculateVisibleWidth payload.width with
  | .error err => .error err
  | .ok label_width_px =>
    let padding_px := label_width_px - payload.width
    let offset := e.justificationOffsetPx padding_px
    if offset < e.visible_horizontal_margin_px then
      .error .assertionError
    else
      let horizontal_offset_px : Int :=
        if e.mode = .print then (offset : Int) - e.labeler_horizontal_margin_px
        else (offset : Int)
      let bitmap_height := payload.height + e.labeler_vertical_margin_px * 2
      .ok (⟨label_width_px, bitmap_height⟩,
           ⟨horizontal_offset_px, e.labeler_vertical_margin_px⟩)

/-- Decidable equality of `Except` values, for concrete evaluation of the
fallible rendering operations. -/
instance exceptDecEq {ε α : Type} [DecidableEq ε] [DecidableEq α] :
    DecidableEq (Except ε α) := fun a b =>
  match a, b with
  | .error x, .error y =>
    if h : x = y then .isTrue (by rw [h])
    else .isFalse (by intro hc; injection hc; exact h (by assumption))
  | .ok x, .ok y =>
    if h : x = y then .isTrue (by rw [h])
    else .isFalse (by intro hc; injection hc; exact h (by assumption))
  | .error _, .ok _ => .isFalse (by intro hc; cases hc)
  | .ok _, .error _ => .isFalse (by intro hc; cases hc)

/-- The width selected by `_calculate_visible_width` on success is the max
of the minimal width and the floor `min_width_px`. -/
theorem MarginsRenderEngine.calculateVisibleWidth_ok_eq
    (e : MarginsRenderEngine) (w : Nat)
    (h : ∀ mw, e.max_width_px = some mw → e.minimalLabelWidthPx w ≤ mw) :
    e.calculateVisibleWidth w = .ok (max (e.minimalLabelWidthPx w) e.min_width_px) := by
  have hsel : (if e.min_width_px > e.minimalLabelWidthPx w then e.min_width_px
      else e.minimalLabelWidthPx w) = max (e.minimalLabelWidthPx w) e.min_width_px := by
    rw [Nat.max_def]
    split <;> split <;> omega
  cases hmw : e.max_width_px with
  | none => simp only [calculateVisibleWidth, hmw, hsel]
  | some mw =>
    have := h mw hmw
    simp only [calculateVisibleWidth, hmw]
    rw [if_neg (by omega), hsel]

/-- On success, the selected label width is at least the minimal width,
so the padding is at least twice the visible margin. -/
theorem MarginsRenderEngine.minimal_le_of_ok
    (e : MarginsRenderEngine) (w L : Nat)
    (h : e.calculateVisibleWidth w = .ok L) :
    e.minimalLabelWidthPx w ≤ L := by
  cases hmw : e.max_width_px with
  | none =>
    simp only [calculateVisibleWidth, hmw] at h
    split at h <;> simp only [Except.ok.injEq] at h <;> omega
  | some mw =>
    simp only [calculateVisibleWidth, hmw] at h
    split at h
    · exact absurd h (by simp)
    · split at h <;> simp only [Except.ok.injEq] at h <;> omega

/-- The justification offset is always at least the visible margin,
provided the padding is at least twice the visible margin. -/
theorem MarginsRenderEngine.offset_ge_margin
    (e : MarginsRenderEngine) (padding_px : Nat)
    (h : e.visible_horizontal_margin_px * 2 ≤ padding_px) :
    e.visible_horizontal_margin_px ≤ e.justificationOffsetPx padding_px := by
  unfold justificationOffsetPx
  split
  · exact Nat.le_refl _
  · rw [Nat.le_div_iff_mul_le (by norm_num)]
    omega
  · omega

/-- Master shape lemma: whenever `_calculate_visible_width` succeeds,
`render_with_meta` succeeds, the canvas has the selected width and the
vertically-padded height, and the reported horizontal offset is the
justification offset with the print-mode cutter correction applied. -/
theorem MarginsRenderEngine.renderWithMeta_eq_ok
    (e : MarginsRenderEngine) (p : Bitmap) (L : Nat)
    (hL : e.calculateVisibleWidth p.width = .ok L) :
    e.renderWithMeta p = .ok
      (⟨L, p.height + e.labeler_vertical_margin_px * 2⟩,
       ⟨(if e.mode = .print then
           (e.justificationOffsetPx (L - p.width) : Int) -
             e.labeler_horizontal_margin_px
         else (e.justificationOffsetPx (L - p.width) : Int)),
        e.labeler_vertical_margin_px⟩) := by
  have hmin := e.minimal_le_of_ok p.width L hL
  have hpad : e.visible_horizontal_margin_px * 2 ≤ L - p.width := by
    unfold minimalLabelWidthPx at hmin
    omega
  have hoff := e.offset_ge_margin (L - p.width) hpad
  simp only [renderWithMeta, hL]
  rw [if_neg (Nat.not_lt.2 hoff)]

/-- The width computation only ever fails with `BitmapTooBigError`, never
with an assertion failure. -/
theorem MarginsRenderEngine.calculateVisibleWidth_ne_assertion
    (e : MarginsRenderEngine) (w : Nat) :
    e.calculateVisibleWidth w ≠ .error .assertionError := by
  cases hmw : e.max_width_px with
  | none => simp [calculateVisibleWidth, hmw]
  | some mw =>
    simp only [calculateVisibleWidth, hmw]
    split <;> simp

/-- Specialization with no max width: the selected width is
`max (payload + 2 * margin) min_width`. -/
theorem MarginsRenderEngine.calculateVisibleWidth_no_max
    (mode : Mode) (j : Direction) (w m n lh lv : Nat) :
    (⟨mode, j, m, lh, lv, none, n⟩ :
        MarginsRenderEngine).calculateVisibleWidth w = .ok (max (w + 2 * m) n) := by
  have h := calculateVisibleWidth_ok_eq ⟨mode, j, m, lh, lv, none, n⟩ w
    (by intro mw hmw; cases hmw)
  simpa [minimalLabelWidthPx, Nat.mul_comm] using h

/-- C1: for every `MarginsRenderEngine.render_with_meta` call in preview
mode with no max width (payload width `w`, visible margin `m`,
`min_width_px` `n`, label width `L = max (w + 2m, n)`, padding
`p = L - w`), the horizontal offset is `m` for left justify, `p / 2` for
center and `p - m` for right; in particular with `w = 100`, `m = 20`,
`n = 0` all three justifications give label width 140 and offset 20, and
with `n = 200` the padding is 100 and the offsets are left 20, center 50,
right 80. -/
theorem claim_C1_justification_offsets :
    (∀ (w h m n lh lv : Nat) (j : Direction),
      (⟨.preview, j, m, lh, lv, none, n⟩ :
          MarginsRenderEngine).renderWithMeta ⟨w, h⟩ = .ok
        (⟨max (w + 2 * m) n, h + lv * 2⟩,
         ⟨(match j with
            | .left => (m : Int)
            | .center => ((max (w + 2 * m) n - w) / 2 : Nat)
            | .right => ((max (w + 2 * m) n - w - m : Nat) : Int)),
          lv⟩))
    ∧ ((⟨.preview, .left, 20, 0, 0, none, 0⟩ :
          MarginsRenderEngine).renderWithMeta ⟨100, 1⟩ =
        .ok (⟨140, 1⟩, ⟨20, 0⟩)
      ∧ (⟨.preview, .center, 20, 0, 0, none, 0⟩ :
          MarginsRenderEngine).renderWithMeta ⟨100, 1⟩ =
        .ok (⟨140, 1⟩, ⟨20, 0⟩)
      ∧ (⟨.preview, .right, 20, 0, 0, none, 0⟩ :
          MarginsRenderEngine).renderWithMeta ⟨100, 1⟩ =
        .ok (⟨140, 1⟩, ⟨20, 0⟩))
    ∧ ((⟨.preview, .left, 20, 0, 0, none, 200⟩ :
          MarginsRenderEngine).renderWithMeta ⟨100, 1⟩ =
        .ok (⟨200, 1⟩, ⟨20, 0⟩)
      ∧ (⟨.preview, .center, 20, 0, 0, none, 200⟩ :
          MarginsRenderEngine).renderWithMeta ⟨100, 1⟩ =
        .ok (⟨200, 1⟩, ⟨50, 0⟩)
      ∧ (⟨.preview, .right, 20, 0, 0, none, 200⟩ :
          MarginsRenderEngine).renderWithMeta ⟨100, 1⟩ =
        .ok (⟨200, 1⟩, ⟨80, 0⟩)) := by
  refine ⟨?_, by decide, by decide⟩
  intro w h m n lh lv j
  have hcalc := MarginsRenderEngine.calculateVisibleWidth_no_max
    .preview j w m n lh lv
  have hok := MarginsRenderEngine.renderWithMeta_eq_ok
    ⟨.preview, j, m, lh, lv, none, n⟩ ⟨w, h⟩ (max (w + 2 * m) n) hcalc
  rw [hok]
  cases j <;> simp [MarginsRenderEngine.justificationOffsetPx]

/-- C2: with a max width set, a payload whose minimal label width
(payload plus both visible margins) exceeds it makes
`render_with_meta` fail with `BitmapTooBigError` carrying the computed
width and the limit, and no bitmap is produced; otherwise no such error
is raised.  In particular payload 500, margin 10, max 400 errors with
values 520 and 400. -/
theorem claim_C2_bitmap_too_big :
    (∀ (mode : Mode) (j : Direction) (w h m n mw lh lv : Nat),
      (w + 2 * m > mw →
        (⟨mode, j, m, lh, lv, some mw, n⟩ :
            MarginsRenderEngine).renderWithMeta ⟨w, h⟩ =
          .error (.bitmapTooBig (w + 2 * m) mw))
      ∧ (w + 2 * m ≤ mw →
        ∃ out, (⟨mode, j, m, lh, lv, some mw, n⟩ :
            MarginsRenderEngine).renderWithMeta ⟨w, h⟩ = .ok out))
    ∧ (⟨.preview, .center, 10, 0, 0, some 400, 0⟩ :
        MarginsRenderEngine).renderWithMeta ⟨500, 1⟩ =
      .error (.bitmapTooBig 520 400) := by
  refine ⟨?_, by decide⟩
  intro mode j w h m n mw lh lv
  constructor
  · intro hgt
    have hcalc : (⟨mode, j, m, lh, lv, some mw, n⟩ :
        MarginsRenderEngine).calculateVisibleWidth w =
        .error (.bitmapTooBig (w + 2 * m) mw) := by
      have h2 : w + 2 * m = w + m * 2 := by ring
      rw [h2]
      simp only [MarginsRenderEngine.calculateVisibleWidth,
        MarginsRenderEngine.minimalLabelWidthPx]
      rw [if_pos (by omega)]
    simp only [MarginsRenderEngine.renderWithMeta, hcalc]
  · intro hle
    have hcalc := MarginsRenderEngine.calculateVisibleWidth_ok_eq
      ⟨mode, j, m, lh, lv, some mw, n⟩ w
      (by intro mw2 hmw2
          injection hmw2 with hmw2
          subst hmw2
          simpa [MarginsRenderEngine.minimalLabelWidthPx] using
            (by omega : w + m * 2 ≤ mw))
    exact ⟨_, MarginsRenderEngine.renderWithMeta_eq_ok _ _ _ hcalc⟩

/-- C3: for every justify value and all (nonnegative) margin inputs, the
horizontal offset computed by the justification step is at least
`visible_horizontal_margin_px`, i.e. the assertion guarding it never
fails. -/
theorem claim_C3_offset_assertion_never_fails :
    (∀ (e : MarginsRenderEngine) (p : Bitmap),
      e.renderWithMeta p ≠ .error .assertionError)
    ∧ (∀ (e : MarginsRenderEngine) (w L : Nat),
      e.calculateVisibleWidth w = .ok L →
      e.visible_horizontal_margin_px ≤ e.justificationOffsetPx (L - w)) := by
  have hoffset : ∀ (e : MarginsRenderEngine) (w L : Nat),
      e.calculateVisibleWidth w = .ok L →
      e.visible_horizontal_margin_px ≤ e.justificationOffsetPx (L - w) := by
    intro e w L hL
    have hmin := e.minimal_le_of_ok w L hL
    refine e.offset_ge_margin (L - w) ?_
    unfold MarginsRenderEngine.minimalLabelWidthPx at hmin
    omega
  refine ⟨?_, hoffset⟩
  intro e p
  cases hc : e.calculateVisibleWidth p.width with
  | error err =>
    simp only [MarginsRenderEngine.renderWithMeta, hc]
    intro hcontra
    injection hcontra with hcontra
    rw [hcontra] at hc
    exact e.calculateVisibleWidth_ne_assertion p.width hc
  | ok L =>
    rw [e.renderWithMeta_eq_ok p L hc]
    simp

/-- Witness for C3: a concrete engine and width where the offset bound is
attained. -/
theorem claim_C3_witness :
    (⟨.preview, .center, 20, 0, 0, none, 200⟩ :
        MarginsRenderEngine).calculateVisibleWidth 100 = .ok 200
    ∧ 20 ≤ (⟨.preview, .center, 20, 0, 0, none, 200⟩ :
        MarginsRenderEngine).justificationOffsetPx (200 - 100) :=
  ⟨by decide, claim_C3_offset_assertion_never_fails.2
    ⟨.preview, .center, 20, 0, 0, none, 200⟩ 100 200 (by decide)⟩

/-- C10: in print mode the metadata horizontal offset equals the
justification offset minus the labeler horizontal margin; whenever the
labeler horizontal margin exceeds the justification offset, the returned
offset is negative and lies below `visible_horizontal_margin_px`; the
offset-at-least-margin invariant is checked on the pre-subtraction
offset only. -/
theorem claim_C10_print_offset_subtraction :
    ∀ (w h m n lh lv : Nat) (j : Direction),
      ((⟨.print, j, m, lh, lv, none, n⟩ :
          MarginsRenderEngine).renderWithMeta ⟨w, h⟩ = .ok
        (⟨max (w + 2 * m) n, h + lv * 2⟩,
         ⟨((⟨.print, j, m, lh, lv, none, n⟩ :
              MarginsRenderEngine).justificationOffsetPx
                (max (w + 2 * m) n - w) : Int) - (lh : Int),
          lv⟩))
      ∧ m ≤ (⟨.print, j, m, lh, lv, none, n⟩ :
          MarginsRenderEngine).justificationOffsetPx (max (w + 2 * m) n - w)
      ∧ (((⟨.print, j, m, lh, lv, none, n⟩ :
            MarginsRenderEngine).justificationOffsetPx
              (max (w + 2 * m) n - w) : Int) < (lh : Int) →
          ((⟨.print, j, m, lh, lv, none, n⟩ :
            MarginsRenderEngine).justificationOffsetPx
              (max (w + 2 * m) n - w) : Int) - (lh : Int) < 0
          ∧ ((⟨.print, j, m, lh, lv, none, n⟩ :
            MarginsRenderEngine).justificationOffsetPx
              (max (w + 2 * m) n - w) : Int) - (lh : Int) < (m : Int)) := by
  intro w h m n lh lv j
  have hcalc := MarginsRenderEngine.calculateVisibleWidth_no_max
    .print j w m n lh lv
  have hok := MarginsRenderEngine.renderWithMeta_eq_ok
    ⟨.print, j, m, lh, lv, none, n⟩ ⟨w, h⟩ (max (w + 2 * m) n) hcalc
  refine ⟨by rw [hok]; simp, ?_, by omega⟩
  have hmin := MarginsRenderEngine.minimal_le_of_ok _ w _ hcalc
  simp only [MarginsRenderEngine.minimalLabelWidthPx] at hmin
  exact MarginsRenderEngine.offset_ge_margin
    ⟨.print, j, m, lh, lv, none, n⟩ (max (w + 2 * m) n - w)
    (by show m * 2 ≤ max (w + 2 * m) n - w; omega)

/-- Witness for C10: zero visible margin with a positive print-head to
cutter distance gives a negative returned offset. -/
theorem claim_C10_witness :
    ((⟨.print, .left, 0, 5, 0, none, 0⟩ :
        MarginsRenderEngine).justificationOffsetPx
          (max (100 + 2 * 0) 0 - 100) : Int) < (5 : Nat)
    ∧ ((⟨.print, .left, 0, 5, 0, none, 0⟩ :
        MarginsRenderEngine).justificationOffsetPx
          (max (100 + 2 * 0) 0 - 100) : Int) - ((5 : Nat) : Int) < 0 :=
  ⟨by decide, ((claim_C10_print_offset_subtraction 100 1 0 0 5 0 .left).2.2
    (by decide)).1⟩

/-- Witness for C2: payload 500, margin 10, max 400 triggers the error
with values 520 and 400. -/
theorem claim_C2_witness :
    500 + 2 * 10 > 400
    ∧ (⟨.print, .left, 10, 0, 0, some 400, 0⟩ :
        MarginsRenderEngine).renderWithMeta ⟨500, 1⟩ =
      .error (.bitmapTooBig (500 + 2 * 10) 400) :=
  ⟨by decide,
   (claim_C2_bitmap_too_big.1 .print .left 500 1 10 0 400 0 0).1 (by decide)⟩

/-- The default width of `EmptyRenderEngine` (`empty.py`): a one-column
blank bitmap at the context height. -/
def emptyRender (width_px : Nat) (context_height_px : Nat) : Bitmap :=
  ⟨width_px, context_height_px⟩

/-- Embeds `_compute_total_width` (`horizontally_combined.py` lines
43-52): total width is the sum of child widths plus one padding between
each adjacent pair.  Python computes `number_of_bitmaps - 1` over ints;
this function is only called with at least two bitmaps, where `Nat`
subtraction agrees. -/
def computeTotalWidth (bitmaps : List Bitmap) (padding : Nat) : Nat :=
  (bitmaps.map Bitmap.width).sum + (bitmaps.length - 1) * padding

/-- Embeds `HorizontallyCombinedRenderEngine.render`
(`horizontally_combined.py` lines 24-40) applied to the child bitmaps
(the rendered `render_engines`; an empty engine list renders a single
default `EmptyRenderEngine`): one child is returned unchanged, several
children are merged onto a canvas of the computed total width at the
tallest child height. -/
def horizontallyCombinedRender (bitmaps : List Bitmap) (padding : Nat)
    (context_height_px : Nat) : Bitmap :=
  match bitmaps with
  | [] => emptyRender 1 context_height_px
  | [b] => b
  | b1 :: b2 :: rest =>
    ⟨computeTotalWidth (b1 :: b2 :: rest) padding,
     ((b1 :: b2 :: rest).map Bitmap.height).foldl max 0⟩

/-- C4: for every non-empty list of child bitmaps and every padding, the
combined bitmap width is the sum of the child widths plus
`padding × (n − 1)`; children of widths 3, 5, 7 with padding 4 give
combined width 23. -/
theorem claim_C4_combined_width_law :
    (∀ (bitmaps : List Bitmap) (padding context_height_px : Nat),
      bitmaps ≠ [] →
      (horizontallyCombinedRender bitmaps padding context_height_px).width =
        (bitmaps.map Bitmap.width).sum + padding * (bitmaps.length - 1))
    ∧ (horizontallyCombinedRender [⟨3, 1⟩, ⟨5, 1⟩, ⟨7, 1⟩] 4 1).width = 23 := by
  refine ⟨?_, by decide⟩
  intro bitmaps padding ctx hne
  match bitmaps with
  | [] => exact absurd rfl hne
  | [b] => simp [horizontallyCombinedRender]
  | b1 :: b2 :: rest =>
    simp only [horizontallyCombinedRender, computeTotalWidth]
    ring

/-- Witness for C4: the width law applied to the three-child example. -/
theorem claim_C4_witness :
    (horizontallyCombinedRender [⟨3, 1⟩, ⟨5, 1⟩, ⟨7, 1⟩] 4 1).width =
      (([⟨3, 1⟩, ⟨5, 1⟩, ⟨7, 1⟩] : List Bitmap).map Bitmap.width).sum +
        4 * (([⟨3, 1⟩, ⟨5, 1⟩, ⟨7, 1⟩] : List Bitmap).length - 1) :=
  claim_C4_combined_width_law.1 [⟨3, 1⟩, ⟨5, 1⟩, ⟨7, 1⟩] 4 1 (by decide)

/-- Python `round(x, 0)` (round half to even) on a rational, as used for
the top margin in `DymoLabeler.tape_print_properties`. -/
def pyRoundHalfEven (x : ℚ) : ℤ :=
  let f := Int.floor x
  let frac := x - f
  if frac < 1/2 then f
  else if 1/2 < frac then f + 1
  else if 2 ∣ f then f else f + 1

/-- The device-geometry fields of `DeviceConfig` that
`DymoLabeler.tape_print_properties` reads (`dymo_labeler.py` accesses
them as `print_head_px`, `print_head_mm`, `tape_alignment_inaccuracy_mm`
and `supported_tape_sizes_mm`; the spec calls the first two
`print_head_width_px` and `print_head_active_area_mm`).  Python float
quantities are modelled as exact rationals. -/
structure TapeDeviceConfig where
  print_head_px : Nat
  print_head_mm : ℚ
  tape_alignment_inaccuracy_mm : ℚ
  supported_tape_sizes_mm : List Nat
deriving DecidableEq

/-- The `TapePrintProperties` named tuple (`dymo_labeler.py` lines
240-243); fields are `Int` after the final `int(...)` conversions. -/
structure TapePrintProperties where
  usable_tape_height_px : ℤ
  top_margin_px : ℤ
  bottom_margin_px : ℤ
deriving DecidableEq

/-- Embeds the `DymoLabeler.tape_print_properties` property
(`dymo_labeler.py` lines 292-344): reject unsupported tape sizes, clamp
the usable height to the print head, floor it to whole pixels, compute a
centered top margin with `round(..., 0)`, mirror it to the bottom, and
recompute the usable height so the three parts total exactly the print
head size. -/
def tapePrintProperties (cfg : TapeDeviceConfig) (tape_size_mm : Nat) :
    Except String TapePrintProperties :=
  if tape_size_mm ∈ cfg.supported_tape_sizes_mm then
    let usable_tape_height_mm : ℚ :=
      (tape_size_mm : ℚ) - 2 * cfg.tape_alignment_inaccuracy_mm
    let usable_tape_height_pixels : ℚ :=
      if usable_tape_height_mm ≥ cfg.print_head_mm then (cfg.print_head_px : ℚ)
      else ((cfg.print_head_px : ℚ) / cfg.print_head_mm) * usable_tape_height_mm
    let usable_floored : ℤ := Int.floor usable_tape_height_pixels
    let margin_top : ℤ :=
      pyRoundHalfEven (((cfg.print_head_px : ℚ) - (usable_floored : ℚ)) / 2)
    let margin_bottom : ℤ := margin_top
    let usable_final : ℤ := (cfg.print_head_px : ℤ) - (margin_top + margin_bottom)
    .ok ⟨usable_final, margin_top, margin_bottom⟩
  else .error "Unsupported tape size"

/-- C5: for every supported tape size of a device config, the computed
`TapePrintProperties` satisfy `top_margin_px + usable_tape_height_px +
bottom_margin_px == print_head_width_px` exactly. -/
theorem claim_C5_tape_margins_total (cfg : TapeDeviceConfig)
    (tape_size_mm : Nat)
    (h : tape_size_mm ∈ cfg.supported_tape_sizes_mm) :
    ∃ props, tapePrintProperties cfg tape_size_mm = .ok props
      ∧ props.top_margin_px + props.usable_tape_height_px +
          props.bottom_margin_px = (cfg.print_head_px : ℤ) := by
  unfold tapePrintProperties
  rw [if_pos h]
  exact ⟨_, rfl, by ring⟩

/-- Witness for C5: a 12mm tape on a 128px/18mm print head (the simulator
geometry) totals exactly 128 pixels. -/
theorem claim_C5_witness :
    12 ∈ (⟨128, 18, 1, [6, 9, 12, 19, 24]⟩ :
        TapeDeviceConfig).supported_tape_sizes_mm
    ∧ ∃ props, tapePrintProperties ⟨128, 18, 1, [6, 9, 12, 19, 24]⟩ 12 = .ok props
      ∧ props.top_margin_px + props.usable_tape_height_px +
          props.bottom_margin_px = ((128 : Nat) : ℤ) :=
  ⟨by decide, claim_C5_tape_margins_total ⟨128, 18, 1, [6, 9, 12, 19, 24]⟩ 12
    (by decide)⟩

/-- The escape byte preceding all commands (`constants.py`: `ESC = 0x1B`). -/
def ESC : Nat := 0x1B

/-- Little-endian 2-byte encoding (`struct.pack "<H"`), for values below
2^16. -/
def leBytes2 (n : Nat) : List Nat :=
  [n % 256, n / 256 % 256]

/-- Little-endian 4-byte encoding (`struct.pack "<I"`), for values below
2^32. -/
def leBytes4 (n : Nat) : List Nat :=
  [n % 256, n / 256 % 256, n / 65536 % 256, n / 16777216 % 256]

/-- Big-endian 4-byte encoding (`struct.pack ">I"`). -/
def beBytes4 (n : Nat) : List Nat :=
  (leBytes4 n).reverse

/-- A protocol command (`dymo_labeler_550_commands.py`, class `Command`):
a human-readable description plus a byte payload. -/
structure Command where
  description : String
  payload : List Nat
deriving DecidableEq

/-- `DymoLabeler550Command.start_of_print_job`: `ESC s` plus the 4-byte
little-endian job id. -/
def startOfPrintJob (job_id : Nat) : Command :=
  ⟨s!"Start of Print Job #{job_id}", [ESC, 0x73] ++ leBytes4 job_id⟩

/-- `DymoLabeler550Command.select_graphics_output_mode`: `ESC i`. -/
def selectGraphicsOutputMode : Command :=
  ⟨"Select Graphics Output Mode", [ESC, 0x69]⟩

/-- `DymoLabeler550Command.set_label_index`: `ESC n` plus the 2-byte
little-endian label index. -/
def setLabelIndex (label_index : Nat) : Command :=
  ⟨s!"Set Label Index #{label_index}", [ESC, 0x6E] ++ leBytes2 label_index⟩

/-- `DymoLabeler550Command.label_print_data`: `ESC D`, one byte of
bits-per-pixel (1), one byte of alignment (2), big-endian 4-byte width
and height, then the raw print data (the source asserts
`len(print_data) == width * height`). -/
def labelPrintData (width height : Nat) (print_data : List Nat) : Command :=
  ⟨s!"Label Print Data (Width {width}, Height {height})",
   [ESC, 0x44, 1, 2] ++ beBytes4 width ++ beBytes4 height ++ print_data⟩

/-- `DymoLabeler550Command.feed_to_print_head` (short form feed): `ESC G`. -/
def feedToPrintHead : Command :=
  ⟨"Feed to Print Head (Short Form Feed)", [ESC, 0x47]⟩

/-- `DymoLabeler550Command.feed_to_tear_position` (long form feed):
`ESC E`. -/
def feedToTearPosition : Command :=
  ⟨"Feed to Tear Position (Long Form Feed)", [ESC, 0x45]⟩

/-- `DymoLabeler550Command.end_of_print_job`: `ESC Q`. -/
def endOfPrintJob : Command :=
  ⟨"End of Print Job", [ESC, 0x51]⟩

/-- `LabelData` (`dymo_labeler_550.py`): width, height and raw data with
`len(data) == width * height`. -/
structure LabelData where
  width : Nat
  height : Nat
  data : List Nat
deriving DecidableEq

/-- A `CommandBatch` (`dymo_labeler_550.py`): a title plus an ordered
list of commands. -/
structure CommandBatch where
  title : String
  commands : List Command
deriving DecidableEq

/-- `CommandBatch.payload`: the flat concatenation of the member command
payloads, in order. -/
def CommandBatch.payload (b : CommandBatch) : List Nat :=
  (b.commands.map Command.payload).flatten

/-- The commands of `DymoLabeler550CommandBatch._print_job_header`:
start-of-print-job then select-graphics-output-mode. -/
def printJobHeaderCommands (job_id : Nat) : List Command :=
  [startOfPrintJob job_id, selectGraphicsOutputMode]

/-- The commands of `DymoLabeler550CommandBatch._print_label`: set the
label index, send the label print data, then feed (to tear position when
`feed_to_cut`, else to print head). -/
def printLabelCommands (width height : Nat) (print_data : List Nat)
    (label_index : Nat) (feed_to_cut : Bool) : List Command :=
  [setLabelIndex label_index, labelPrintData width height print_data,
   if feed_to_cut then feedToTearPosition else feedToPrintHead]

/-- Embeds `DymoLabeler550CommandBatch.label_print_job`
(`dymo_labeler_550.py` lines 110-138): the header batch, one
`_print_label` batch per label (feed-to-cut only on the last), and the
end-of-print-job batch, flattened into one command list. -/
def labelPrintJob (labels : List LabelData) (job_id : Nat) : CommandBatch :=
  let label_batches := labels.enum.map fun p =>
    printLabelCommands p.2.width p.2.height p.2.data p.1
      (p.1 == labels.length - 1)
  ⟨s!"Label Print Job #{job_id}",
   printJobHeaderCommands job_id ++ label_batches.flatten ++ [endOfPrintJob]⟩

/-- C6: `label_print_job([LabelData(2, 3, b"123456")])` yields a batch
whose flat payload is exactly start-of-job (1B 73 00 00 00 00), then
select-graphics-mode, set-label-index(0), label-print-data(2, 3,
"123456"), feed-to-tear-position and end-of-job, byte for byte. -/
theorem claim_C6_lw550_print_job_bytes :
    (labelPrintJob [⟨2, 3, [0x31, 0x32, 0x33, 0x34, 0x35, 0x36]⟩] 0).payload =
      [0x1B, 0x73, 0x00, 0x00, 0x00, 0x00]
        ++ [0x1B, 0x69]
        ++ [0x1B, 0x6E, 0x00, 0x00]
        ++ ([0x1B, 0x44, 0x01, 0x02]
            ++ [0x00, 0x00, 0x00, 0x02] ++ [0x00, 0x00, 0x00, 0x03]
            ++ [0x31, 0x32, 0x33, 0x34, 0x35, 0x36])
        ++ [0x1B, 0x45]
        ++ [0x1B, 0x51] := by
  decide

/-- `DymoLabelerFunctions._maxLines` (`dymo_labeler.py` line 78): the
batch-size bound for the legacy protocol. -/
def maxLines : Nat := 200

/-- Embeds the batching loop of `DymoLabelerFunctions.print_label`
(`dymo_labeler.py` lines 219-227): while more than `maxLines + 1` lines
remain, send the first `maxLines` lines as one `_raw_print_label` call
and drop them; finally send the remainder as one call.  Each returned
batch is one `_raw_print_label` call, and every such call sends its lines
followed by a status request/response round trip. -/
def printLabelBatches (lines : List (List Nat)) : List (List (List Nat)) :=
  if maxLines + 1 < lines.length then
    lines.take maxLines :: printLabelBatches (lines.drop maxLines)
  else [lines]
termination_by lines.length
decreasing_by simpa [maxLines] using by omega

/-- `printLabelBatches` always produces at least one batch (the final
`_raw_print_label` call happens unconditionally). -/
theorem printLabelBatches_ne_nil (lines : List (List Nat)) :
    printLabelBatches lines ≠ [] := by
  unfold printLabelBatches
  split <;> simp

/-- The batches concatenate back to the original lines. -/
theorem printLabelBatches_flatten (lines : List (List Nat)) :
    (printLabelBatches lines).flatten = lines := by
  induction lines using printLabelBatches.induct with
  | case1 lines hlt ih =>
    rw [printLabelBatches, if_pos hlt]
    simp [ih]
  | case2 lines hlt =>
    rw [printLabelBatches, if_neg hlt]
    simp

/-- Every batch holds at most `maxLines + 1` lines, and every batch
except the last holds exactly `maxLines` lines. -/
theorem printLabelBatches_lengths (lines : List (List Nat)) :
    (∀ b ∈ printLabelBatches lines, b.length ≤ maxLines + 1)
    ∧ (∀ b ∈ (printLabelBatches lines).dropLast, b.length = maxLines) := by
  induction lines using printLabelBatches.induct with
  | case1 lines hlt ih =>
    rw [printLabelBatches, if_pos hlt]
    obtain ⟨ih1, ih2⟩ := ih
    constructor
    · intro b hb
      rcases List.mem_cons.1 hb with hb | hb
      · subst hb
        simp [List.length_take]
      · exact ih1 b hb
    · intro b hb
      rw [List.dropLast_cons_of_ne_nil (printLabelBatches_ne_nil _)] at hb
      rcases List.mem_cons.1 hb with hb | hb
      · subst hb
        rw [List.length_take]
        omega
      · exact ih2 b hb
  | case2 lines hlt =>
    rw [printLabelBatches, if_neg hlt]
    refine ⟨?_, by simp⟩
    intro b hb
    rcases List.mem_cons.1 hb with hb | hb
    · subst hb
      omega
    · simp at hb

/-- Counterexample to C7 as stated: a label of 201 lines is taller than
200 rows, yet the code sends it as a single 201-line batch (the loop
splits only while more than `maxLines + 1 = 201` lines remain), so some
batch exceeds 200 lines. -/
theorem claim_C7_counterexample :
    printLabelBatches (List.replicate 201 [0]) = [List.replicate 201 [0]]
    ∧ (List.replicate 201 ([0] : List Nat)).length > 200 := by
  constructor
  · rw [printLabelBatches,
      if_neg (by simp only [maxLines, List.length_replicate]; omega)]
  · simp only [List.length_replicate]
    omega

/-- C7 (amended): a label is split into successive batches only while
more than 201 lines remain; every batch except the last has exactly 200
lines, the last batch has at most 201 lines, the batches concatenate
back to the original lines, and each batch is one `_raw_print_label`
call, hence independently followed by a status poll. -/
theorem claim_C7_chunking_amended (lines : List (List Nat)) :
    (printLabelBatches lines).flatten = lines
    ∧ (∀ b ∈ printLabelBatches lines, b.length ≤ maxLines + 1)
    ∧ (∀ b ∈ (printLabelBatches lines).dropLast, b.length = maxLines) :=
  ⟨printLabelBatches_flatten lines,
   (printLabelBatches_lengths lines).1,
   (printLabelBatches_lengths lines).2⟩

/-- Witness for C7 (amended), at the concrete 201-line label: the single
batch it produces is within the amended 201-line bound. -/
theorem claim_C7_witness :
    (List.replicate 201 ([0] : List Nat)).length ≤ maxLines + 1 :=
  (claim_C7_chunking_amended (List.replicate 201 [0])).2.1
    (List.replicate 201 [0])
    (by rw [printLabelBatches,
          if_neg (by simp only [maxLines, List.length_replicate]; omega)]
        exact List.mem_singleton_self _)

/-- `BleDevice.END_BYTES` (`ble_device.py`): the fixed end marker. -/
def END_BYTES : List Nat := [0x12, 0x34]

/-- `BleDevice.START_BYTES`: the fixed start marker `FF F0` followed by
the end-marker bytes. -/
def START_BYTES : List Nat := [0xFF, 0xF0] ++ END_BYTES

/-- `BleDevice.checksum`: `sum(data) & 0xFF`, i.e. the byte sum modulo
256. -/
def bleChecksum (data : List Nat) : Nat := data.sum % 256

/-- `BleDevice.get_header`: the start marker, the 4-byte little-endian
body length (`len(body).to_bytes(4, "little")`), and one checksum byte
over the header bytes accumulated so far. -/
def getHeader (body : List Nat) : List Nat :=
  let result := START_BYTES ++ leBytes4 body.length
  result ++ [bleChecksum result]

/-- Python's `itertools.batched`: split a list into consecutive chunks of
`n` elements, the last chunk possibly shorter.  Python raises
`ValueError` for `n < 1`; the `0` case here is unreachable from
`chunkify`, which guards it. -/
def listChunks : Nat → List Nat → List (List Nat)
  | _, [] => []
  | 0, _ :: _ => []
  | n + 1, x :: xs =>
    ((x :: xs).take (n + 1)) :: listChunks (n + 1) ((x :: xs).drop (n + 1))
termination_by _ l => l.length
decreasing_by simp [List.length_drop]; omega

/-- `BleDevice.chunkify`: batch the body into `chunk_size`-byte chunks
and extend the last chunk with the end marker.  `none` models the Python
exceptions: `ValueError` from `batched` when `chunk_size < 1`, and
`IndexError` on `chunks[-1]` when the body is empty. -/
def chunkify (body : List Nat) (chunk_size : Nat) : Option (List (List Nat)) :=
  if chunk_size < 1 then none
  else
    match (listChunks chunk_size body).getLast? with
    | none => none
    | some last =>
      some ((listChunks chunk_size body).dropLast ++ [last ++ END_BYTES])

/-- Auxiliary fuel-based induction: chunks concatenate back to the
original list. -/
theorem listChunks_flatten_aux (n fuel : Nat) :
    ∀ xs : List Nat, xs.length ≤ fuel →
      (listChunks (n + 1) xs).flatten = xs := by
  induction fuel with
  | zero =>
    intro xs hxs
    obtain rfl : xs = [] := List.eq_nil_of_length_eq_zero (by omega)
    simp only [listChunks]
    rfl
  | succ fuel ih =>
    intro xs hxs
    cases xs with
    | nil => simp only [listChunks]; rfl
    | cons x xs =>
      simp only [listChunks, List.flatten_cons]
      rw [ih ((x :: xs).drop (n + 1))
        (by simp only [List.length_drop, List.length_cons]
            simp only [List.length_cons] at hxs
            omega)]
      exact List.take_append_drop (n + 1) (x :: xs)

/-- Chunks concatenate back to the original list. -/
theorem listChunks_flatten (n : Nat) (xs : List Nat) :
    (listChunks (n + 1) xs).flatten = xs :=
  listChunks_flatten_aux n xs.length xs (Nat.le_refl _)

/-- Auxiliary fuel-based induction: every chunk holds at most `n + 1`
elements. -/
theorem listChunks_length_le_aux (n fuel : Nat) :
    ∀ xs : List Nat, xs.length ≤ fuel →
      ∀ b ∈ listChunks (n + 1) xs, b.length ≤ n + 1 := by
  induction fuel with
  | zero =>
    intro xs hxs b hb
    obtain rfl : xs = [] := List.eq_nil_of_length_eq_zero (by omega)
    simp only [listChunks] at hb
    cases hb
  | succ fuel ih =>
    intro xs hxs b hb
    cases xs with
    | nil => simp only [listChunks] at hb; cases hb
    | cons x xs =>
      simp only [listChunks] at hb
      rcases List.mem_cons.1 hb with hb | hb
      · subst hb
        simp [List.length_take]
      · exact ih ((x :: xs).drop (n + 1))
          (by simp only [List.length_drop, List.length_cons]
              simp only [List.length_cons] at hxs
              omega) b hb

/-- Every chunk holds at most `n + 1` elements. -/
theorem listChunks_length_le (n : Nat) (xs : List Nat) :
    ∀ b ∈ listChunks (n + 1) xs, b.length ≤ n + 1 :=
  listChunks_length_le_aux n xs.length xs (Nat.le_refl _)

/-- For a non-empty list and positive chunk size there is at least one
chunk. -/
theorem listChunks_ne_nil (n : Nat) (x : Nat) (xs : List Nat) :
    listChunks (n + 1) (x :: xs) ≠ [] := by
  simp only [listChunks]
  simp

/-- C8: for every non-empty message body and negotiated transfer unit
(with room for the two framing bytes), the header is the fixed start
marker, the 4-byte little-endian body length, and one checksum byte equal
to the sum of the preceding header bytes modulo 256; and the body is
split into chunks none larger than the transfer unit minus the framing
overhead, with the final chunk suffixed by the fixed end marker. -/
theorem claim_C8_ble_framing (body : List Nat) (mtu : Nat)
    (hbody : body ≠ []) (hmtu : 3 ≤ mtu) :
    getHeader body = START_BYTES ++ leBytes4 body.length ++
      [(START_BYTES ++ leBytes4 body.length).sum % 256]
    ∧ ∃ cs last, listChunks (mtu - 2) body = cs ++ [last]
        ∧ (cs ++ [last]).flatten = body
        ∧ (∀ c ∈ cs ++ [last], c.length ≤ mtu - 2)
        ∧ chunkify body (mtu - 2) = some (cs ++ [last ++ END_BYTES]) := by
  refine ⟨rfl, ?_⟩
  obtain ⟨k, hk⟩ : ∃ k, mtu - 2 = k + 1 := ⟨mtu - 3, by omega⟩
  obtain ⟨x, xs, rfl⟩ : ∃ x xs, body = x :: xs := by
    cases body with
    | nil => exact absurd rfl hbody
    | cons x xs => exact ⟨x, xs, rfl⟩
  rcases List.eq_nil_or_concat (listChunks (mtu - 2) (x :: xs)) with hnil | hcat
  · rw [hk] at hnil
    exact absurd hnil (listChunks_ne_nil k x xs)
  obtain ⟨cs, last, hcs⟩ := hcat
  rw [List.concat_eq_append] at hcs
  refine ⟨cs, last, hcs, ?_, ?_, ?_⟩
  · rw [← hcs, hk]
    exact listChunks_flatten k (x :: xs)
  · intro c hc
    rw [← hcs] at hc
    rw [hk] at hc ⊢
    exact listChunks_length_le k (x :: xs) c hc
  · unfold chunkify
    rw [if_neg (by omega), hcs, List.getLast?_concat, List.dropLast_concat]

/-- Witness for C8: the header of the 5-byte body `[1, 2, 3, 4, 5]` with
transfer unit 5. -/
theorem claim_C8_witness :
    ([1, 2, 3, 4, 5] : List Nat) ≠ []
    ∧ 3 ≤ 5
    ∧ getHeader [1, 2, 3, 4, 5] =
        START_BYTES ++ leBytes4 ([1, 2, 3, 4, 5] : List Nat).length ++
          [(START_BYTES ++ leBytes4 ([1, 2, 3, 4, 5] : List Nat).length).sum % 256] :=
  ⟨by decide, by decide,
   (claim_C8_ble_framing [1, 2, 3, 4, 5] 5 (by decide) (by decide)).1⟩

/-- `MAGIC_NUMBER` (`dymo_labeler_550_command_with_response.py` line 20). -/
def MAGIC_NUMBER : Nat := 0xCAB6

/-- The `tries` argument `CommandWithResponse.execute` passes to
`retry_call` (line 337). -/
def SKU_TRIES : Nat := 10

/-- The `delay` argument (in seconds) `CommandWithResponse.execute`
passes to `retry_call` (line 338); real time is not modelled, only the
configured constant. -/
def SKU_DELAY_SECONDS : ℚ := 1/2

/-- The `magic_number` field of the 64-byte SKU response: the first two
bytes, little-endian (`struct.unpack "<H..."`). -/
def skuMagicNumber (response : List Nat) : Nat :=
  response.headD 0 + 256 * (response.drop 1).headD 0

/-- The `version` field of the SKU response: the third byte. -/
def skuVersion (response : List Nat) : Nat :=
  (response.drop 2).headD 0

/-- Outcome of one `CommandGetSkuInformation._response` decode attempt,
restricted to the magic-number/version conformance gate
(`dymo_labeler_550_command_with_response.py` lines 471-477); the
remaining field decoding is outside the scope of the retry claim. -/
inductive SkuGateResult where
  | notReadyYet
  | assertionFailure
  | ok (magic : Nat)
deriving DecidableEq

/-- Embeds the gate of `CommandGetSkuInformation._response`: a zero magic
number raises the retryable `NfcNotReadyYetError`; a non-zero magic
number other than `MAGIC_NUMBER`, or a non-zero version, fails the
(non-retryable) conformance assertion; otherwise decoding proceeds. -/
def decodeSkuGate (response : List Nat) : SkuGateResult :=
  if skuMagicNumber response = 0 then .notReadyYet
  else if skuMagicNumber response ≠ MAGIC_NUMBER then .assertionFailure
  else if skuVersion response ≠ 0 then .assertionFailure
  else .ok (skuMagicNumber response)

/-- Outcome of the retried execution: success at some attempt index,
an immediate non-retryable failure at some attempt index, or the
retryable exception re-raised after the attempt cap. -/
inductive RetryOutcome where
  | success (attempt : Nat) (magic : Nat)
  | hardFailure (attempt : Nat)
  | exhausted
deriving DecidableEq

/-- Modelled from the spec: the bounded retry helper
(`retry.api.retry_call`, an external dependency whose code is not in this
repository) calls the function up to `tries` times with a fixed delay
between attempts, retrying only the listed exceptions
(`NfcNotReadyYetError` for `CommandGetSkuInformation`), re-raising the
retryable exception once the cap is exhausted, and propagating any other
exception immediately.  `responses` gives the device's reply to each
attempt. -/
def runRetrySku (responses : Nat → List Nat) :
    Nat → Nat → RetryOutcome
  | 0, _ => .exhausted
  | tries + 1, attempt =>
    match decodeSkuGate (responses attempt) with
    | .ok m => .success attempt m
    | .assertionFailure => .hardFailure attempt
    | .notReadyYet => runRetrySku responses tries (attempt + 1)

/-- `CommandGetSkuInformation.execute`: run the request/decode cycle
under `retry_call` with `tries = 10`, `delay = 0.5`. -/
def executeGetSkuInformation (responses : Nat → List Nat) : RetryOutcome :=
  runRetrySku responses SKU_TRIES 0

/-- If every response in the window is the zero-magic "not ready" reply,
the retry loop exhausts its cap. -/
theorem runRetrySku_exhausted (responses : Nat → List Nat) :
    ∀ tries attempt,
      (∀ j, attempt ≤ j → j < attempt + tries →
        skuMagicNumber (responses j) = 0) →
      runRetrySku responses tries attempt = .exhausted := by
  intro tries
  induction tries with
  | zero => intro attempt _; rfl
  | succ tries ih =>
    intro attempt hzero
    have h0 : skuMagicNumber (responses attempt) = 0 :=
      hzero attempt (Nat.le_refl _) (by omega)
    simp only [runRetrySku, decodeSkuGate, h0, if_pos]
    exact ih (attempt + 1) (fun j h1 h2 => hzero j (by omega) (by omega))

/-- If the first `k` responses are zero-magic and the `k`-th decode gives
gate result `r`, the retry loop reaches attempt `k` and stops there
according to `r`. -/
theorem runRetrySku_first_nonzero (responses : Nat → List Nat) :
    ∀ k tries attempt, k < tries →
      (∀ j, j < k → skuMagicNumber (responses (attempt + j)) = 0) →
      skuMagicNumber (responses (attempt + k)) ≠ 0 →
      runRetrySku responses tries attempt =
        match decodeSkuGate (responses (attempt + k)) with
        | .ok m => .success (attempt + k) m
        | .assertionFailure => .hardFailure (attempt + k)
        | .notReadyYet => runRetrySku responses (tries - k - 1) (attempt + k + 1) := by
  intro k
  induction k with
  | zero =>
    intro tries attempt hk _ _
    obtain ⟨t, rfl⟩ : ∃ t, tries = t + 1 := ⟨tries - 1, by omega⟩
    simp only [runRetrySku, Nat.add_zero, Nat.sub_zero, Nat.add_sub_cancel]
  | succ k ih =>
    intro tries attempt hk hzero hnz
    obtain ⟨t, rfl⟩ : ∃ t, tries = t + 1 := ⟨tries - 1, by omega⟩
    have h0 : skuMagicNumber (responses attempt) = 0 := by
      have := hzero 0 (by omega)
      simpa using this
    have hg : decodeSkuGate (responses attempt) = .notReadyYet := by
      simp [decodeSkuGate, h0]
    have hrec := ih t (attempt + 1) (by omega)
      (fun j hj => by
        have := hzero (j + 1) (by omega)
        simpa [Nat.add_assoc, Nat.add_comm, Nat.add_left_comm] using this)
      (by
        have h := hnz
        simpa [Nat.add_assoc, Nat.add_comm, Nat.add_left_comm] using h)
    simp only [runRetrySku, hg]
    rw [hrec]
    have harith : attempt + 1 + k = attempt + (k + 1) := by omega
    have harith2 : t - k - 1 = t + 1 - (k + 1) - 1 := by omega
    rw [harith, harith2]

/-- A 64-byte response whose magic number is 1: non-zero, yet not the
expected `MAGIC_NUMBER`. -/
def skuBadMagicResponse : List Nat := 1 :: List.replicate 63 0

/-- Counterexample to C9 as stated: supplying a response with non-zero
magic number 1 does not make the command succeed — the conformance
assertion `magic_number == MAGIC_NUMBER` fails on the first attempt and
the failure is not retried. -/
theorem claim_C9_counterexample :
    skuMagicNumber skuBadMagicResponse ≠ 0
    ∧ executeGetSkuInformation (fun _ => skuBadMagicResponse) =
        .hardFailure 0
    ∧ executeGetSkuInformation (fun _ => skuBadMagicResponse) ≠
        .success 0 (skuMagicNumber skuBadMagicResponse) := by
  refine ⟨by decide, by decide, by decide⟩

/-- C9 (amended): a zero magic number is treated as a retryable
"not ready" condition: the command is re-executed with a fixed 0.5s
delay up to the fixed cap of 10 tries; retrying stops at the first
response with non-zero magic number, succeeding when it passes the
conformance gate (magic `0xCAB6`, version 0) and surfacing the
conformance assertion failure immediately otherwise; the "not ready"
condition becomes a hard failure only after the cap is exhausted. -/
theorem claim_C9_sku_retry :
    SKU_TRIES = 10 ∧ SKU_DELAY_SECONDS = 1/2
    ∧ (∀ (responses : Nat → List Nat) (k m : Nat),
        k < SKU_TRIES →
        (∀ j, j < k → skuMagicNumber (responses j) = 0) →
        decodeSkuGate (responses k) = .ok m →
        executeGetSkuInformation responses = .success k m)
    ∧ (∀ (responses : Nat → List Nat) (k : Nat),
        k < SKU_TRIES →
        (∀ j, j < k → skuMagicNumber (responses j) = 0) →
        decodeSkuGate (responses k) = .assertionFailure →
        executeGetSkuInformation responses = .hardFailure k)
    ∧ (∀ responses : Nat → List Nat,
        (∀ j, j < SKU_TRIES → skuMagicNumber (responses j) = 0) →
        executeGetSkuInformation responses = .exhausted) := by
  refine ⟨rfl, rfl, ?_, ?_, ?_⟩
  · intro responses k m hk hzero hgate
    have hnz : skuMagicNumber (responses k) ≠ 0 := by
      intro h0
      simp [decodeSkuGate, h0] at hgate
    have hstep := runRetrySku_first_nonzero responses k SKU_TRIES 0 hk
      (fun j hj => by simpa using hzero j hj)
      (by simpa using hnz)
    unfold executeGetSkuInformation
    rw [hstep]
    simp only [Nat.zero_add, hgate]
  · intro responses k hk hzero hgate
    have hnz : skuMagicNumber (responses k) ≠ 0 := by
      intro h0
      simp [decodeSkuGate, h0] at hgate
    have hstep := runRetrySku_first_nonzero responses k SKU_TRIES 0 hk
      (fun j hj => by simpa using hzero j hj)
      (by simpa using hnz)
    unfold executeGetSkuInformation
    rw [hstep]
    simp only [Nat.zero_add, hgate]
  · intro responses hzero
    exact runRetrySku_exhausted responses SKU_TRIES 0
      (fun j h1 h2 => hzero j (by omega))

/-- Attempt-indexed responses for the C9 witness: two "not ready"
all-zero replies, then a conformant reply with magic `0xCAB6`. -/
def skuWitnessResponses (attempt : Nat) : List Nat :=
  if attempt < 2 then List.replicate 64 0
  else 0xB6 :: 0xCA :: List.replicate 62 0

/-- Witness for C9: with two zero-magic replies followed by a conformant
one, execution succeeds on the third attempt (index 2), within the cap. -/
theorem claim_C9_witness :
    (2 < SKU_TRIES
      ∧ decodeSkuGate (skuWitnessResponses 2) = .ok 0xCAB6)
    ∧ executeGetSkuInformation skuWitnessResponses = .success 2 0xCAB6 :=
  ⟨⟨by decide, by decide⟩,
   claim_C9_sku_retry.2.2.1 skuWitnessResponses 2 0xCAB6 (by decide)
     (by decide) (by decide)⟩

end Labelle
